import Mathlib

/-
Verification of the static code-analysis core of the MCP-Fresh repository
(src/professional_code_analyzer.py) against its natural-language specification.

The Python source is shallowly embedded: the `ast` syntax tree becomes the
inductive type `PyNode`; the `ast.NodeVisitor` subclasses (which dispatch a
`visit_<Kind>` handler on every node of the tree via `generic_visit`) become
per-node check functions folded over a preorder enumeration of the tree;
Python floats used for confidences and scores become exact rationals; and the
file system touched by `analyze_file` becomes an explicit `FileSystem` value.
-/

namespace CodeAnalyzer

/-! ## String helpers

Python string primitives (`in`, `startswith`, `lower`, `split('\n')`,
`count`) modelled over `List Char` so that all evaluation is by structural
recursion. -/

/-- Lower-cases an ASCII letter, models Python `str.lower` on the ASCII
identifiers and reprs this program feeds it (other characters unchanged). -/
def lowerChar (c : Char) : Char :=
  if 'A' ≤ c && c ≤ 'Z' then Char.ofNat (c.toNat + 32) else c

/-- Models Python `str.lower`. -/
def lowerStr (s : String) : String :=
  ⟨s.data.map lowerChar⟩

/-- Char-list version of `str.startswith`. -/
def startsL : List Char → List Char → Bool
  | [], _ => true
  | _ :: _, [] => false
  | p :: ps, c :: cs => p == c && startsL ps cs

/-- Models Python `s.startswith(pre)`. -/
def pyStarts (s pre : String) : Bool :=
  startsL pre.data s.data

/-- Char-list version of Python substring membership. -/
def hasSubL (pat : List Char) : List Char → Bool
  | [] => startsL pat []
  | c :: cs => startsL pat (c :: cs) || hasSubL pat cs

/-- Models Python `pat in s` (substring membership). -/
def pyIn (pat s : String) : Bool :=
  hasSubL pat.data s.data

/-- Splits a char list at newline characters, carrying the reversed current
piece; models `str.split('\n')` (an empty string yields one empty piece, as
in Python). -/
def splitNlAux : List Char → List Char → List (List Char)
  | acc, [] => [acc.reverse]
  | acc, c :: cs =>
    if c == '\n' then acc.reverse :: splitNlAux [] cs
    else splitNlAux (c :: acc) cs

/-- Models Python `content.split('\n')`. -/
def pySplitLines (s : String) : List String :=
  (splitNlAux [] s.data).map String.mk

/-- Fueled non-overlapping substring count; the fuel bounds the recursion
depth and `s.length` is always enough. -/
def countSubAux (pat : List Char) : Nat → List Char → Nat
  | 0, _ => 0
  | _, [] => 0
  | fuel + 1, c :: cs =>
    if startsL pat (c :: cs) then
      1 + countSubAux pat fuel (List.drop (pat.length - 1) cs)
    else
      countSubAux pat fuel cs

/-- Models Python `s.count(pat)` (non-overlapping occurrences) for nonempty
`pat`. -/
def pyCount (s pat : String) : Nat :=
  countSubAux pat.data s.data.length s.data

/-- Concatenation of the lists produced by `f`, models the accumulation of
per-node visitor output over a node enumeration. -/
def listFlat {α β : Type} (f : α → List β) : List α → List β
  | [] => []
  | a :: as => f a ++ listFlat f as

/-! ## Finding and metric model

Field-for-field embeddings of the `@dataclass`es `CodeIssue`,
`FunctionMetrics` and `ClassMetrics`. The `severity` and `category` strings
range over the fixed vocabularies of the data model, embedded as enums;
`confidence` is an exact rational. -/

inductive Severity where
  | critical
  | warning
  | suggestion
deriving DecidableEq, BEq

inductive IssueCategory where
  | logic
  | performance
  | security
  | architecture
deriving DecidableEq, BEq

structure CodeIssue where
  severity : Severity
  category : IssueCategory
  message : String
  file_path : String
  line_number : Nat
  code_snippet : String
  fix_suggestion : String
  confidence : ℚ

structure FunctionMetrics where
  name : String
  line_start : Nat
  line_end : Nat
  complexity : Nat
  parameter_count : Nat
  return_complexity : Nat
  has_docstring : Bool
  async_function : Bool
  nested_functions : Nat
  external_calls : List String

structure ClassMetrics where
  name : String
  line_start : Nat
  line_end : Nat
  method_count : Nat
  property_count : Nat
  inheritance_depth : Nat
  has_docstring : Bool
  design_pattern : Option String

/-! ## Python abstract syntax trees

`PyNode` embeds the `ast` node kinds the analyzer inspects. Notes on fields:

* `params` of a function models `node.args.args` as the list of argument
  names (argument nodes carry nothing else the program reads).
* `basesCount` of a class models `len(node.bases)`; the base expressions
  themselves are never read.
* `targetsRepr` of an assignment stores the text `str(node.targets)` that the
  security check matches keywords against; this text is produced by the
  Python runtime's `repr` of the target node objects, so the embedding keeps
  it as data of the node.
* `opAdd` of a binary operation models `isinstance(node.op, ast.Add)`.
* a `boolOp` node stands for one `ast.BoolOp` together with its single
  `ast.And`/`ast.Or` operator object, so counting `boolOp` nodes counts the
  `And`/`Or` nodes seen by `ast.walk`.
* linenos of pure expression nodes are never read by the program and are
  omitted. -/

inductive PyNode where
  | functionDef (name : String) (params : List String) (body : List PyNode)
      (lineno : Nat) (endLineno : Nat)
  | asyncFunctionDef (name : String) (params : List String) (body : List PyNode)
      (lineno : Nat) (endLineno : Nat)
  | classDef (name : String) (basesCount : Nat) (body : List PyNode)
      (lineno : Nat) (endLineno : Nat)
  | ifStmt (test : PyNode) (body : List PyNode) (orelse : List PyNode) (lineno : Nat)
  | whileStmt (test : PyNode) (body : List PyNode) (orelse : List PyNode) (lineno : Nat)
  | forStmt (target : PyNode) (iter : PyNode) (body : List PyNode)
      (orelse : List PyNode) (lineno : Nat)
  | asyncForStmt (target : PyNode) (iter : PyNode) (body : List PyNode)
      (orelse : List PyNode) (lineno : Nat)
  | withStmt (items : List PyNode) (body : List PyNode) (lineno : Nat)
  | asyncWithStmt (items : List PyNode) (body : List PyNode) (lineno : Nat)
  | tryStmt (body : List PyNode) (handlers : List PyNode) (orelse : List PyNode)
      (finalbody : List PyNode) (lineno : Nat)
  | exceptHandler (htype : Option PyNode) (body : List PyNode) (lineno : Nat)
  | returnStmt (value : Option PyNode) (lineno : Nat)
  | assignStmt (targets : List PyNode) (targetsRepr : String) (value : PyNode) (lineno : Nat)
  | exprStmt (value : PyNode) (lineno : Nat)
  | passStmt (lineno : Nat)
  | callExpr (func : PyNode) (args : List PyNode) (lineno : Nat)
  | attrExpr (value : PyNode) (attr : String)
  | nameExpr (id : String)
  | constantStr (s : String)
  | constantOther
  | boolOpExpr (isAnd : Bool) (values : List PyNode)
  | binOpExpr (left : PyNode) (opAdd : Bool) (right : PyNode)

mutual

/-- Proper descendants of a node in preorder. Together with the node itself
this enumerates the same multiset of nodes as Python's `ast.walk(node)` and
visits the same nodes as `ast.NodeVisitor.generic_visit` recursion. -/
def subnodes : PyNode → List PyNode
  | .functionDef _ _ body _ _ => walkList body
  | .asyncFunctionDef _ _ body _ _ => walkList body
  | .classDef _ _ body _ _ => walkList body
  | .ifStmt t body orelse _ => (t :: subnodes t) ++ walkList body ++ walkList orelse
  | .whileStmt t body orelse _ => (t :: subnodes t) ++ walkList body ++ walkList orelse
  | .forStmt tg it body orelse _ =>
      (tg :: subnodes tg) ++ (it :: subnodes it) ++ walkList body ++ walkList orelse
  | .asyncForStmt tg it body orelse _ =>
      (tg :: subnodes tg) ++ (it :: subnodes it) ++ walkList body ++ walkList orelse
  | .withStmt items body _ => walkList items ++ walkList body
  | .asyncWithStmt items body _ => walkList items ++ walkList body
  | .tryStmt body handlers orelse finalbody _ =>
      walkList body ++ walkList handlers ++ walkList orelse ++ walkList finalbody
  | .exceptHandler htype body _ =>
      (match htype with
       | none => []
       | some t => t :: subnodes t) ++ walkList body
  | .returnStmt value _ =>
      match value with
      | none => []
      | some v => v :: subnodes v
  | .assignStmt targets _ value _ => walkList targets ++ (value :: subnodes value)
  | .exprStmt v _ => v :: subnodes v
  | .passStmt _ => []
  | .callExpr f args _ => (f :: subnodes f) ++ walkList args
  | .attrExpr v _ => v :: subnodes v
  | .nameExpr _ => []
  | .constantStr _ => []
  | .constantOther => []
  | .boolOpExpr _ values => walkList values
  | .binOpExpr l _ r => (l :: subnodes l) ++ (r :: subnodes r)

/-- Preorder enumeration of every node of a statement list (each list element
followed by its descendants). Applied to a parsed module body this enumerates
every node a visitor started at the `Module` root reaches. -/
def walkList : List PyNode → List PyNode
  | [] => []
  | n :: ns => (n :: subnodes n) ++ walkList ns

end

/-- Every node of the subtree rooted at `n`, the node itself first; the
multiset of `ast.walk(n)`. -/
def walkOf (n : PyNode) : List PyNode :=
  n :: subnodes n

/-! ## Simple node predicates and accessors -/

/-- Models `isinstance(n, ast.FunctionDef)` (async definitions are a distinct
class and do not match). -/
def isFunctionDefNode : PyNode → Bool
  | .functionDef _ _ _ _ _ => true
  | _ => false

/-- Models `isinstance(n, ast.AsyncFunctionDef)`. -/
def isAsyncFunctionNode : PyNode → Bool
  | .asyncFunctionDef _ _ _ _ _ => true
  | _ => false

/-- Models `isinstance(n, (ast.For, ast.While))`. -/
def isLoopNode : PyNode → Bool
  | .forStmt _ _ _ _ _ => true
  | .whileStmt _ _ _ _ => true
  | _ => false

/-- Models `isinstance(n, ast.ExceptHandler) and n.type is None`. -/
def isBareHandler : PyNode → Bool
  | .exceptHandler none _ _ => true
  | _ => false

/-- Models `isinstance(n, ast.Assign)`. -/
def isAssignNode : PyNode → Bool
  | .assignStmt _ _ _ _ => true
  | _ => false

/-- Models `isinstance(n, ast.Return)`. -/
def isReturnNode : PyNode → Bool
  | .returnStmt _ _ => true
  | _ => false

/-- Models `isinstance(n, ast.BinOp) and isinstance(n.op, ast.Add)`. -/
def isAddBinOp : PyNode → Bool
  | .binOpExpr _ opAdd _ => opAdd
  | _ => false

/-- The `lineno` attribute of the node kinds whose lineno the program reads
(statements and calls); 0 for the remaining pure expressions. -/
def nodeLineno : PyNode → Nat
  | .functionDef _ _ _ l _ => l
  | .asyncFunctionDef _ _ _ l _ => l
  | .classDef _ _ _ l _ => l
  | .ifStmt _ _ _ l => l
  | .whileStmt _ _ _ l => l
  | .forStmt _ _ _ _ l => l
  | .asyncForStmt _ _ _ _ l => l
  | .withStmt _ _ l => l
  | .asyncWithStmt _ _ l => l
  | .tryStmt _ _ _ _ l => l
  | .exceptHandler _ _ l => l
  | .returnStmt _ l => l
  | .assignStmt _ _ _ l => l
  | .exprStmt _ l => l
  | .passStmt l => l
  | .callExpr _ _ l => l
  | .attrExpr _ _ => 0
  | .nameExpr _ => 0
  | .constantStr _ => 0
  | .constantOther => 0
  | .boolOpExpr _ _ => 0
  | .binOpExpr _ _ _ => 0

/-- Models `self.lines[node.lineno-1] if node.lineno <= len(self.lines) else ""`. -/
def snippetAt (lines : List String) (lineno : Nat) : String :=
  if lineno ≤ lines.length then lines.getD (lineno - 1) "" else ""

/-- Models `ast.get_docstring(node) is not None`: the first body statement is
an expression statement holding a string constant. -/
def hasDocstringB : List PyNode → Bool
  | .exprStmt (.constantStr _) _ :: _ => true
  | _ => false

/-- Constructor shorthand for a `CodeIssue`. -/
def mkIssue (sev : Severity) (cat : IssueCategory) (msg fp : String) (lineno : Nat)
    (snippet fix : String) (conf : ℚ) : CodeIssue :=
  { severity := sev, category := cat, message := msg, file_path := fp,
    line_number := lineno, code_snippet := snippet, fix_suggestion := fix,
    confidence := conf }

/-! ## BusinessLogicVisitor -/

/-- The operation classes `_extract_function_operations` collects from the
subtree of a function: `return`, `assignment`, `file_io`, `database`. -/
structure FuncOps where
  hasReturn : Bool
  hasAssignment : Bool
  hasFileIO : Bool
  hasDatabase : Bool

/-- One `ast.walk` step of `_extract_function_operations`. -/
def opsStep (acc : FuncOps) : PyNode → FuncOps
  | .returnStmt _ _ => { acc with hasReturn := true }
  | .assignStmt _ _ _ _ => { acc with hasAssignment := true }
  | .callExpr f _ _ =>
    match f with
    | .attrExpr _ a =>
      if ["open", "read", "write", "close"].contains a then
        { acc with hasFileIO := true }
      else if ["execute", "query", "commit"].contains a then
        { acc with hasDatabase := true }
      else acc
    | _ => acc
  | _ => acc

/-- Models `_extract_function_operations(node)`. -/
def extractOperations (n : PyNode) : FuncOps :=
  (walkOf n).foldl opsStep ⟨false, false, false, false⟩

/-- Models `_check_function_naming_consistency(node)` for a function named
`name` at line `lineno`: the four naming rules, each contributing one
warning/logic issue with confidence 0.7 when it fires. -/
def namingIssuesOf (lines : List String) (fp : String) (name : String) (lineno : Nat)
    (n : PyNode) : List CodeIssue :=
  let fn := lowerStr name
  let ops := extractOperations n
  let mk := fun (m : String) =>
    mkIssue .warning .logic ("命名不一致: " ++ m) fp lineno (snippetAt lines lineno)
      ("考虑重命名函数 '" ++ name ++ "' 或调整函数实现以匹配命名意图") 0.7
  (if pyStarts fn "get_" && !ops.hasReturn then
    [mk "函数名暗示获取数据，但没有返回语句"] else []) ++
  (if pyStarts fn "set_" && !ops.hasAssignment then
    [mk "函数名暗示设置数据，但没有赋值操作"] else []) ++
  (if (pyStarts fn "is_" || pyStarts fn "has_") && !ops.hasReturn then
    [mk "布尔函数应该有返回值"] else []) ++
  (if pyIn "save" fn && !ops.hasFileIO && !ops.hasDatabase then
    [mk "函数名暗示保存操作，但没有发现文件或数据库操作"] else [])

/-- Models `_calculate_cyclomatic_complexity`'s per-walked-node increment:
1 for each conditional/loop/with node (async variants included), the handler
count for a `try`, 1 for each boolean operator node, 0 otherwise. -/
def complexityContribution : PyNode → Nat
  | .ifStmt _ _ _ _ => 1
  | .whileStmt _ _ _ _ => 1
  | .forStmt _ _ _ _ _ => 1
  | .asyncForStmt _ _ _ _ _ => 1
  | .withStmt _ _ _ => 1
  | .asyncWithStmt _ _ _ => 1
  | .tryStmt _ handlers _ _ _ => handlers.length
  | .boolOpExpr _ _ => 1
  | _ => 0

/-- Models `_calculate_cyclomatic_complexity(node)`: starts at 1 and adds the
contribution of every node `ast.walk(node)` yields. -/
def cyclomaticComplexity (n : PyNode) : Nat :=
  1 + ((walkOf n).map complexityContribution).sum

/-- Models `_count_return_statements(node)`. -/
def countReturnStatements (n : PyNode) : Nat :=
  ((walkOf n).filter isReturnNode).length

/-- The name `_extract_external_calls` records for one walked node: the `id`
of a plain-name callee, else the `attr` of an attribute callee. -/
def callNameOf : PyNode → Option String
  | .callExpr f _ _ =>
    match f with
    | .nameExpr i => some i
    | .attrExpr _ a => some a
    | _ => none
  | _ => none

/-- Models `_extract_external_calls(node)`. -/
def extractExternalCalls (n : PyNode) : List String :=
  (walkOf n).filterMap callNameOf

/-- The `FunctionMetrics` record `_analyze_function_responsibility` builds for
a visited function definition. -/
def metricOf (name : String) (params : List String) (body : List PyNode)
    (lineno endLineno : Nat) (n : PyNode) : FunctionMetrics :=
  { name := name,
    line_start := lineno,
    line_end := endLineno,
    complexity := cyclomaticComplexity n,
    parameter_count := params.length,
    return_complexity := countReturnStatements n,
    has_docstring := hasDocstringB body,
    async_function := isAsyncFunctionNode n,
    nested_functions := (body.filter isFunctionDefNode).length,
    external_calls := extractExternalCalls n }

/-- The issues `_analyze_function_responsibility` emits: warning/architecture
(0.9) above complexity 10 and suggestion/architecture (0.8) above 5
parameters. -/
def responsibilityIssuesOf (lines : List String) (fp : String) (params : List String)
    (lineno : Nat) (n : PyNode) : List CodeIssue :=
  let complexity := cyclomaticComplexity n
  let paramCount := params.length
  (if complexity > 10 then
    [mkIssue .warning .architecture
      ("函数复杂度过高 (圈复杂度: " ++ toString complexity ++ ")") fp lineno
      (snippetAt lines lineno) "考虑将此函数拆分为多个更小的函数，每个函数负责单一职责" 0.9]
   else []) ++
  (if paramCount > 5 then
    [mkIssue .suggestion .architecture
      ("函数参数过多 (" ++ toString paramCount ++ "个参数)") fp lineno
      (snippetAt lines lineno) "考虑使用数据类、字典或配置对象来减少参数数量" 0.8]
   else [])

/-- The warning/logic issue (confidence 0.9) `_check_error_handling_consistency`
emits for one bare except handler. -/
def bareExceptIssueOf (lines : List String) (fp : String) (h : PyNode) : CodeIssue :=
  mkIssue .warning .logic "使用了裸except子句，可能掩盖重要错误" fp (nodeLineno h)
    (snippetAt lines (nodeLineno h))
    "指定具体的异常类型，如 'except ValueError:' 或 'except (TypeError, ValueError):'" 0.9

/-- Models `_check_error_handling_consistency(node)`: one warning/logic issue
with confidence 0.9 per bare except handler found in the `ast.walk` of the
visited function. -/
def errorHandlingIssuesOf (lines : List String) (fp : String) (n : PyNode) :
    List CodeIssue :=
  ((walkOf n).filter isBareHandler).map (bareExceptIssueOf lines fp)

/-- What `BusinessLogicVisitor.visit_FunctionDef` contributes at one node:
only `ast.FunctionDef` nodes are dispatched (async definitions have no
handler and fall through to `generic_visit`); for a function the three checks
run in source order and one metric is recorded. -/
def bizCheckNode (lines : List String) (fp : String) :
    PyNode → List CodeIssue × List FunctionMetrics
  | n@(.functionDef name params body lineno endLineno) =>
    (namingIssuesOf lines fp name lineno n ++
       responsibilityIssuesOf lines fp params lineno n ++
       errorHandlingIssuesOf lines fp n,
     [metricOf name params body lineno endLineno n])
  | _ => ([], [])

/-- The issue list `_analyze_business_logic` accumulates over a parsed module
body. -/
def businessIssues (lines : List String) (fp : String) (tree : List PyNode) :
    List CodeIssue :=
  listFlat (fun n => (bizCheckNode lines fp n).1) (walkList tree)

/-- The `FunctionMetrics` list `_analyze_business_logic` accumulates over a
parsed module body. -/
def businessMetrics (lines : List String) (fp : String) (tree : List PyNode) :
    List FunctionMetrics :=
  listFlat (fun n => (bizCheckNode lines fp n).2) (walkList tree)

/-! ## PerformanceVisitor -/

/-- What `PerformanceVisitor.visit_For` contributes at one node. Only
`ast.For` nodes have a handler: a nested-loop warning (0.8) when the walk of
the loop minus the loop itself contains another for/while, and a
string-concatenation warning (0.9) when it contains a binary addition. -/
def perfCheckNode (lines : List String) (fp : String) : PyNode → List CodeIssue
  | n@(.forStmt _ _ _ _ lineno) =>
    let nestedLoops := (subnodes n).filter isLoopNode
    let stringConcats := (walkOf n).filter isAddBinOp
    (if !nestedLoops.isEmpty then
      [mkIssue .warning .performance "发现嵌套循环，可能导致O(n²)或更高复杂度" fp lineno
        (snippetAt lines lineno)
        "考虑优化算法，使用哈希表、预计算或其他数据结构来减少时间复杂度" 0.8]
     else []) ++
    (if !stringConcats.isEmpty then
      [mkIssue .warning .performance "循环中进行字符串拼接，性能较差" fp lineno
        (snippetAt lines lineno) "使用 ''.join() 或 f-string 在循环外进行字符串操作" 0.9]
     else [])
  | _ => []

/-- The issue list `_analyze_performance_patterns` accumulates. -/
def performanceIssues (lines : List String) (fp : String) (tree : List PyNode) :
    List CodeIssue :=
  listFlat (perfCheckNode lines fp) (walkList tree)

/-! ## SecurityVisitor -/

/-- The sensitive-identifier keywords of `visit_Assign`. -/
def secKeywords : List String :=
  ["password", "secret", "key", "token"]

/-- What the `SecurityVisitor` contributes at one node: `visit_Assign` flags
a hardcoded secret (critical/security, 0.8) when the assigned value is a
string constant longer than 8 characters and a keyword occurs in the
lower-cased `str(node.targets)`; `visit_Call` flags `eval`/`exec` callees by
plain name (critical/security, 0.95). -/
def secCheckNode (lines : List String) (fp : String) : PyNode → List CodeIssue
  | .assignStmt _ targetsRepr value lineno =>
    match value with
    | .constantStr s =>
      if s.length > 8 && secKeywords.any (fun k => pyIn k (lowerStr targetsRepr)) then
        [mkIssue .critical .security "检测到硬编码的敏感信息" fp lineno
          (snippetAt lines lineno) "使用环境变量、配置文件或密钥管理服务来存储敏感信息" 0.8]
      else []
    | _ => []
  | .callExpr f _ lineno =>
    match f with
    | .nameExpr i =>
      if i == "eval" then
        [mkIssue .critical .security "使用eval()函数存在代码注入风险" fp lineno
          (snippetAt lines lineno) "使用ast.literal_eval()或其他安全的替代方案" 0.95]
      else if i == "exec" then
        [mkIssue .critical .security "使用exec()函数存在代码执行风险" fp lineno
          (snippetAt lines lineno) "重新设计代码逻辑，避免动态代码执行" 0.95]
      else []
    | _ => []
  | _ => []

/-- The issue list `_analyze_security_risks` accumulates. -/
def securityIssues (lines : List String) (fp : String) (tree : List PyNode) :
    List CodeIssue :=
  listFlat (secCheckNode lines fp) (walkList tree)

/-! ## ArchitectureVisitor -/

/-- A textual rendering of one node for the design-pattern heuristic. It
models the node text `ast.dump` exposes: the node kind and the identifier,
attribute, target-repr and string-constant content. -/
def nodeText : PyNode → String
  | .functionDef name _ _ _ _ => "FunctionDef(name='" ++ name ++ "')"
  | .asyncFunctionDef name _ _ _ _ => "AsyncFunctionDef(name='" ++ name ++ "')"
  | .classDef name _ _ _ _ => "ClassDef(name='" ++ name ++ "')"
  | .ifStmt _ _ _ _ => "If"
  | .whileStmt _ _ _ _ => "While"
  | .forStmt _ _ _ _ _ => "For"
  | .asyncForStmt _ _ _ _ _ => "AsyncFor"
  | .withStmt _ _ _ => "With"
  | .asyncWithStmt _ _ _ => "AsyncWith"
  | .tryStmt _ _ _ _ _ => "Try"
  | .exceptHandler _ _ _ => "ExceptHandler"
  | .returnStmt _ _ => "Return"
  | .assignStmt _ targetsRepr _ _ => "Assign(targets=" ++ targetsRepr ++ ")"
  | .exprStmt _ _ => "Expr"
  | .passStmt _ => "Pass"
  | .callExpr _ _ _ => "Call"
  | .attrExpr _ a => "Attribute(attr='" ++ a ++ "')"
  | .nameExpr i => "Name(id='" ++ i ++ "')"
  | .constantStr s => "Constant(value='" ++ s ++ "')"
  | .constantOther => "Constant"
  | .boolOpExpr _ _ => "BoolOp"
  | .binOpExpr _ _ _ => "BinOp"

/-- Models `str(ast.dump(m))` of a method as the concatenated text of the
method's subtree (the content on which the `'instance' in ...` substring
check operates). -/
def astDump (n : PyNode) : String :=
  String.intercalate ", " ((walkOf n).map nodeText)

/-- The name of a direct-body method. -/
def methodName : PyNode → Option String
  | .functionDef name _ _ _ _ => some name
  | _ => none

/-- Models `_detect_design_pattern(class_node, methods)`: Singleton, then
Factory, then Observer, else none. -/
def detectDesignPattern (methods : List PyNode) : Option String :=
  let methodNames := methods.filterMap methodName
  if methodNames.contains "__new__" &&
      methods.any (fun m => pyIn "instance" (astDump m)) then
    some "Singleton"
  else if methodNames.any (fun nm => pyStarts nm "create_") then
    some "Factory"
  else if methodNames.contains "notify" && methodNames.contains "subscribe" then
    some "Observer"
  else
    none

/-- What `ArchitectureVisitor.visit_ClassDef` contributes at one node: one
`ClassMetrics` per class unconditionally, plus a warning/architecture issue
(0.8) above 15 direct-body methods. -/
def archCheckNode (lines : List String) (fp : String) :
    PyNode → List CodeIssue × List ClassMetrics
  | .classDef name basesCount body lineno endLineno =>
    let methods := body.filter isFunctionDefNode
    let properties := body.filter isAssignNode
    let cm : ClassMetrics :=
      { name := name,
        line_start := lineno,
        line_end := endLineno,
        method_count := methods.length,
        property_count := properties.length,
        inheritance_depth := basesCount,
        has_docstring := hasDocstringB body,
        design_pattern := detectDesignPattern methods }
    ((if methods.length > 15 then
        [mkIssue .warning .architecture
          ("类过于庞大 (" ++ toString methods.length ++ "个方法)") fp lineno
          (snippetAt lines lineno) "考虑将类拆分为多个更小的类，遵循单一职责原则" 0.8]
      else []),
     [cm])
  | _ => ([], [])

/-- The issue list `_analyze_architecture_decisions` accumulates. -/
def architectureIssues (lines : List String) (fp : String) (tree : List PyNode) :
    List CodeIssue :=
  listFlat (fun n => (archCheckNode lines fp n).1) (walkList tree)

/-- The `ClassMetrics` list `_analyze_architecture_decisions` accumulates. -/
def architectureMetrics (lines : List String) (fp : String) (tree : List PyNode) :
    List ClassMetrics :=
  listFlat (fun n => (archCheckNode lines fp n).2) (walkList tree)

/-! ## Quality scorer -/

/-- The per-severity penalty factor of `_calculate_quality_score`. -/
def severityWeight : Severity → ℚ
  | .critical => 20
  | .warning => 10
  | .suggestion => 5

/-- One issue's score penalty, `weight * confidence` as written in the
source. -/
def issuePenalty (i : CodeIssue) : ℚ :=
  severityWeight i.severity * i.confidence

/-- Rounding to the nearest integer with ties to even, the rounding Python's
builtin `round` applies. -/
def roundHalfEven (q : ℚ) : ℤ :=
  if q - ⌊q⌋ < 1 / 2 then ⌊q⌋
  else if 1 / 2 < q - ⌊q⌋ then ⌊q⌋ + 1
  else if 2 ∣ ⌊q⌋ then ⌊q⌋ else ⌊q⌋ + 1

/-- Models Python `round(x, 1)`. -/
def round1 (q : ℚ) : ℚ :=
  (roundHalfEven (q * 10) : ℚ) / 10

/-- Models `_calculate_quality_score`: 100.0 for no issues, otherwise
`round(max(0, 100 - total_penalty), 1)` with the penalty summed left to
right. -/
def calcQualityScore (issues : List CodeIssue) : ℚ :=
  if issues.isEmpty then 100
  else round1 (max 0 (100 - issues.foldl (fun acc i => acc + issuePenalty i) 0))

/-- The scoring formula as the specification words it:
`max(0, 100 − Σ confidence × weight)`, rounded to one decimal. -/
def qualityScoreSpec (issues : List CodeIssue) : ℚ :=
  round1 (max 0 (100 - (issues.map (fun i => i.confidence * severityWeight i.severity)).sum))

/-! ## File analysis orchestrator

`CodeIntelligenceEngine` holds three per-instance accumulator lists; a file
on disk is embedded as its split lines together with the outcome of
`ast.parse` on its text (the parser is deterministic on the content, so the
outcome is data of the file). -/

/-- The mutable instance state of `CodeIntelligenceEngine`. -/
structure EngineState where
  issues : List CodeIssue
  function_metrics : List FunctionMetrics
  class_metrics : List ClassMetrics

/-- A source file as `analyze_file` consumes it: `source_code.split('\n')`
and the result of `ast.parse(source_code)` (module body, or syntax-error
message and line). -/
structure PyFile where
  lines : List String
  parsed : Except (String × Nat) (List PyNode)

/-- The reachable file system: existing paths with their contents, plus the
process working directory. -/
structure FileSystem where
  files : List (String × PyFile)
  cwd : String

/-- Reading a path; `none` models `os.path.exists` returning false. -/
def FileSystem.readAt (fs : FileSystem) (p : String) : Option PyFile :=
  fs.files.lookup p

/-- Models `os.path.exists(p)`. -/
def FileSystem.pathExists (fs : FileSystem) (p : String) : Bool :=
  (fs.readAt p).isSome

/-- The summary block of an analysis payload. -/
structure AnalysisSummary where
  total_issues : Nat
  critical_issues : Nat
  warnings : Nat
  suggestions : Nat

/-- The success payload of `analyze_file`. -/
structure AnalysisResult where
  file_path : String
  analysis_summary : AnalysisSummary
  issues : List CodeIssue
  function_metrics : List FunctionMetrics
  class_metrics : List ClassMetrics
  overall_quality_score : ℚ

/-- The value `analyze_file` returns: a success payload, an error dict with
only an `error` message (the missing-file case), or an error dict that also
carries `file_path` (syntax error / analysis failure). -/
inductive AnalyzeOut where
  | ok (r : AnalysisResult)
  | err (message : String)
  | errPath (message : String) (file_path : String)

/-- The accumulator state after the four analyzers ran over one parsed tree,
in the fixed order business → performance → security → architecture,
starting from cleared lists. -/
def runAnalyzers (tree : List PyNode) (lines : List String) (fp : String) :
    EngineState :=
  { issues :=
      businessIssues lines fp tree ++ performanceIssues lines fp tree ++
        securityIssues lines fp tree ++ architectureIssues lines fp tree,
    function_metrics := businessMetrics lines fp tree,
    class_metrics := architectureMetrics lines fp tree }

/-- The result payload assembled from the accumulators. -/
def buildResult (st : EngineState) (fp : String) : AnalysisResult :=
  { file_path := fp,
    analysis_summary :=
      { total_issues := st.issues.length,
        critical_issues := (st.issues.filter (fun i => i.severity == .critical)).length,
        warnings := (st.issues.filter (fun i => i.severity == .warning)).length,
        suggestions := (st.issues.filter (fun i => i.severity == .suggestion)).length },
    issues := st.issues,
    function_metrics := st.function_metrics,
    class_metrics := st.class_metrics,
    overall_quality_score := calcQualityScore st.issues }

/-- Models `CodeIntelligenceEngine.analyze_file(file_path)` on instance state
`st`: missing path returns the error dict untouched-state; a parse failure is
caught and returned as a structured error before the accumulators are
cleared; on success the accumulators are cleared in place, the four analyzers
run, and the payload is assembled. -/
def analyzeFile (st : EngineState) (fs : FileSystem) (fp : String) :
    AnalyzeOut × EngineState :=
  match fs.readAt fp with
  | none => (.err ("文件不存在: " ++ fp), st)
  | some file =>
    match file.parsed with
    | .error e =>
      (.errPath ("语法错误: " ++ e.1 ++ " (第" ++ toString e.2 ++ "行)") fp, st)
    | .ok tree =>
      let cleared := runAnalyzers tree file.lines fp
      (.ok (buildResult cleared fp), cleared)

/-- The fixed project-root base path hardcoded in the tool layer. -/
def projectPath : String :=
  "/Users/yuanquan/code_project/GalaxyAI/MCP-Fresh"

/-- Models `os.path.isabs` for the POSIX paths this server handles. -/
def isAbsPath (p : String) : Bool :=
  pyStarts p "/"

/-- The relative-path retry of the `analyze_code_intelligence` tool: a
relative path is rewritten to `os.path.join(project_path, file_path)` only
when that joined path exists. -/
def resolvePath (fs : FileSystem) (p : String) : String :=
  if !isAbsPath p && fs.pathExists (projectPath ++ "/" ++ p) then
    projectPath ++ "/" ++ p
  else p

/-- Models the `analyze_code_intelligence` tool: relative-path retry, then
`analyzer.analyze_file` on the shared engine instance. -/
def analyzeCodeIntelligence (st : EngineState) (fs : FileSystem) (p : String) :
    AnalyzeOut × EngineState :=
  analyzeFile st fs (resolvePath fs p)

/-! ## ContextAwareEngine technical-debt factors -/

/-- The five debt counters of `_calculate_tech_debt`. -/
structure DebtFactors where
  code_duplication : Nat
  long_functions : Nat
  complex_classes : Nat
  missing_tests : Nat
  poor_documentation : Nat

/-- What one scanned `.py` file adds to `long_functions`:
`len([l for l in lines if 'def ' in l and len(content) > 2000])`. -/
def longFunctionsOfFile (content : String) : Nat :=
  ((pySplitLines content).filter
    (fun l => pyIn "def " l && content.length > 2000)).length

/-- What one scanned file adds to `missing_tests`:
`1 if 'test' not in file_path.lower() else 0`. -/
def missingTestsOfFile (path : String) : Nat :=
  if pyIn "test" (lowerStr path) then 0 else 1

/-- What one scanned file adds to `poor_documentation`:
`1 if content.count('\x22\x22\x22') < 2 else 0`. -/
def poorDocumentationOfFile (content : String) : Nat :=
  if pyCount content "\"\"\"" < 2 then 1 else 0

/-- One iteration of the per-file accumulation loop of
`_calculate_tech_debt`. -/
def debtStep (acc : DebtFactors) (f : String × String) : DebtFactors :=
  { acc with
    long_functions := acc.long_functions + longFunctionsOfFile f.2,
    missing_tests := acc.missing_tests + missingTestsOfFile f.1,
    poor_documentation := acc.poor_documentation + poorDocumentationOfFile f.2 }

/-- Models the accumulation loop of `_calculate_tech_debt` over the
recursively collected `.py` files, each given as (path, content);
`code_duplication` and `complex_classes` are never incremented. -/
def calcTechDebtFactors (pyFiles : List (String × String)) : DebtFactors :=
  pyFiles.foldl debtStep ⟨0, 0, 0, 0, 0⟩

/-- Models `total_debt_score = sum(debt_factors.values())`. -/
def totalDebtScore (d : DebtFactors) : Nat :=
  d.code_duplication + d.long_functions + d.complex_classes + d.missing_tests +
    d.poor_documentation

/-- Models the debt-level thresholds. -/
def debtLevel (score : Nat) : String :=
  if score < 10 then "Low" else if score < 25 then "Medium" else "High"

/-! ## DevAcceleratorEngine refactoring suggestions -/

/-- One entry of the `suggest_refactoring` output list. -/
structure RefactorSuggestion where
  stype : String
  message : String
  suggestion : String
deriving DecidableEq

/-- What `suggest_refactoring`'s walk loop contributes at one node: for a
function, a length suggestion when `end_lineno - lineno > 50` and a
parameter suggestion when more than 5 parameters; for a class, a size
suggestion above 15 direct-body methods. -/
def refactorCheckNode : PyNode → List RefactorSuggestion
  | .functionDef name params _ lineno endLineno =>
    (if endLineno - lineno > 50 then
      [⟨"function_length", "函数 '" ++ name ++ "' 过长，建议拆分",
        "将函数拆分为多个更小的函数"⟩]
     else []) ++
    (if params.length > 5 then
      [⟨"parameter_count", "函数 '" ++ name ++ "' 参数过多",
        "使用数据类或配置对象来减少参数数量"⟩]
     else [])
  | .classDef name _ body _ _ =>
    if (body.filter isFunctionDefNode).length > 15 then
      [⟨"class_size", "类 '" ++ name ++ "' 过于庞大",
        "考虑将类拆分，遵循单一职责原则"⟩]
    else []
  | _ => []

/-- Models `DevAcceleratorEngine.suggest_refactoring(code)` given the parse
outcome of `code`: a parse failure yields the empty suggestion list, success
collects suggestions over every node of the tree. -/
def suggestRefactoring (parsed : Except (String × Nat) (List PyNode)) :
    List RefactorSuggestion :=
  match parsed with
  | .error _ => []
  | .ok tree => listFlat refactorCheckNode (walkList tree)

/-! ## General lemmas about accumulated visitor output -/

/-- Filtering the accumulated output of per-node checks that contribute at
most one matching item keeps exactly one item per qualifying node. -/
theorem filter_listFlat {α β : Type} (f : α → List β) (p : β → Bool) (q : α → Bool)
    (g : α → β) (h : ∀ a, (f a).filter p = if q a then [g a] else []) :
    ∀ L : List α, (listFlat f L).filter p = (L.filter q).map g := by
  intro L
  induction L with
  | nil => rfl
  | cons a as ih =>
    simp only [listFlat, List.filter_append, h a, List.filter_cons]
    by_cases hq : q a
    · simp [hq, ih]
    · simp [hq, ih]

/-- The number of matching items in accumulated per-node output is the sum of
the per-node matching counts. -/
theorem length_filter_listFlat {α β : Type} (f : α → List β) (p : β → Bool)
    (w : α → Nat) (h : ∀ a, ((f a).filter p).length = w a) :
    ∀ L : List α, ((listFlat f L).filter p).length = (L.map w).sum := by
  intro L
  induction L with
  | nil => rfl
  | cons a as ih =>
    simp only [listFlat, List.filter_append, List.length_append, h a, ih,
      List.map_cons, List.sum_cons]

/-- The length of accumulated per-node output is the sum of the per-node
lengths. -/
theorem length_listFlat {α β : Type} (f : α → List β) (w : α → Nat)
    (h : ∀ a, (f a).length = w a) :
    ∀ L : List α, (listFlat f L).length = (L.map w).sum := by
  intro L
  induction L with
  | nil => rfl
  | cons a as ih =>
    simp only [listFlat, List.length_append, h a, ih, List.map_cons, List.sum_cons]

/-- Membership in accumulated per-node output comes from some node's own
contribution. -/
theorem mem_listFlat {α β : Type} (f : α → List β) (x : β) :
    ∀ L : List α, x ∈ listFlat f L ↔ ∃ a ∈ L, x ∈ f a := by
  intro L
  induction L with
  | nil => simp [listFlat]
  | cons a as ih => simp [listFlat, ih]

/-- Summing an indicator over a list counts the elements satisfying it. -/
theorem sum_map_ite_one {α : Type} (q : α → Bool) :
    ∀ L : List α, (L.map (fun a => if q a then 1 else 0)).sum = (L.filter q).length := by
  intro L
  induction L with
  | nil => rfl
  | cons a as ih =>
    simp only [List.map_cons, List.sum_cons, List.filter_cons, ih]
    by_cases hq : q a
    · simp [hq]
      omega
    · simp [hq]

/-! ## Rounding lemmas -/

/-- Half-even rounding of an integer is that integer. -/
theorem roundHalfEven_intCast (n : ℤ) : roundHalfEven (n : ℚ) = n := by
  unfold roundHalfEven
  rw [Int.floor_intCast, sub_self]
  norm_num

/-- Half-even rounding never exceeds an integer upper bound of the input. -/
theorem roundHalfEven_le {q : ℚ} {n : ℤ} (h : q ≤ (n : ℚ)) : roundHalfEven q ≤ n := by
  have hfl : ⌊q⌋ ≤ n := by
    have hmono := Int.floor_le_floor h
    rwa [Int.floor_intCast] at hmono
  have key : ¬(q - (⌊q⌋ : ℚ) < 1 / 2) → ⌊q⌋ + 1 ≤ n := by
    intro h1
    have hhalf : (1 : ℚ) / 2 ≤ q - (⌊q⌋ : ℚ) := le_of_not_lt h1
    rcases lt_or_eq_of_le hfl with h' | h'
    · omega
    · exfalso
      have hq : ((n : ℚ)) + 1 / 2 ≤ q := by
        rw [← h']
        linarith
      linarith
  unfold roundHalfEven
  split_ifs with h1 h2 h3
  · exact hfl
  · exact key h1
  · exact hfl
  · exact key h1

/-- Half-even rounding never drops below an integer lower bound of the
input. -/
theorem le_roundHalfEven {q : ℚ} {n : ℤ} (h : (n : ℚ) ≤ q) : n ≤ roundHalfEven q := by
  have hfl : n ≤ ⌊q⌋ := Int.le_floor.mpr h
  unfold roundHalfEven
  split_ifs <;> omega

/-- `round(·, 1)` of a nonnegative value is nonnegative. -/
theorem round1_nonneg {q : ℚ} (h : 0 ≤ q) : 0 ≤ round1 q := by
  have h0 : (0 : ℤ) ≤ roundHalfEven (q * 10) := by
    apply le_roundHalfEven
    push_cast
    linarith
  unfold round1
  have : (0 : ℚ) ≤ (roundHalfEven (q * 10) : ℚ) := by exact_mod_cast h0
  linarith

/-- `round(·, 1)` of a value at most 100 is at most 100. -/
theorem round1_le_100 {q : ℚ} (h : q ≤ 100) : round1 q ≤ 100 := by
  have h0 : roundHalfEven (q * 10) ≤ (1000 : ℤ) := by
    apply roundHalfEven_le
    push_cast
    linarith
  have hc : (roundHalfEven (q * 10) : ℚ) ≤ 1000 := by exact_mod_cast h0
  unfold round1
  linarith

/-- `round(100.0, 1) = 100.0`. -/
theorem round1_hundred : round1 (100 : ℚ) = 100 := by
  have h : (100 : ℚ) * 10 = ((1000 : ℤ) : ℚ) := by norm_num
  unfold round1
  rw [h, roundHalfEven_intCast]
  norm_num

/-! ## Quality-score lemmas -/

/-- The left-to-right penalty accumulation is the sum of the per-issue
penalties. -/
theorem foldl_add_penalty (l : List CodeIssue) (a : ℚ) :
    l.foldl (fun acc i => acc + issuePenalty i) a = a + (l.map issuePenalty).sum := by
  induction l generalizing a with
  | nil => simp
  | cons i l ih =>
    simp only [List.foldl_cons, ih, List.map_cons, List.sum_cons]
    ring

/-- The code's `weight * confidence` sums to the specification's
`confidence * weight`. -/
theorem penalty_sum_comm (l : List CodeIssue) :
    (l.map issuePenalty).sum =
      (l.map (fun i => i.confidence * severityWeight i.severity)).sum := by
  induction l with
  | nil => rfl
  | cons i l ih =>
    simp only [List.map_cons, List.sum_cons, ih, issuePenalty]
    ring

/-- Severity weights are nonnegative. -/
theorem severityWeight_nonneg (s : Severity) : 0 ≤ severityWeight s := by
  cases s <;> norm_num [severityWeight]

/-- C1: for every accumulated issue list (all confidences being nonnegative,
as the data model requires), the quality score equals the specification's
`max(0, 100 − Σ confidence × weight)` with weights 20/10/5 by severity,
rounded to one decimal; the score lies in [0, 100]; and the empty issue list
scores exactly 100.0. -/
theorem quality_score_correct (issues : List CodeIssue)
    (h : ∀ i ∈ issues, 0 ≤ i.confidence) :
    calcQualityScore issues = qualityScoreSpec issues ∧
    0 ≤ calcQualityScore issues ∧
    calcQualityScore issues ≤ 100 ∧
    calcQualityScore [] = 100 := by
  have hempty : calcQualityScore [] = 100 := rfl
  have hsum_nonneg : 0 ≤ (issues.map issuePenalty).sum := by
    apply List.sum_nonneg
    intro x hx
    rcases List.mem_map.mp hx with ⟨i, hi, rfl⟩
    exact mul_nonneg (severityWeight_nonneg i.severity) (h i hi)
  have heq : calcQualityScore issues = qualityScoreSpec issues := by
    cases issues with
    | nil =>
      rw [hempty]
      unfold qualityScoreSpec
      simp only [List.map_nil, List.sum_nil, sub_zero]
      rw [max_eq_right (by norm_num : (0 : ℚ) ≤ 100), round1_hundred]
    | cons i l =>
      unfold calcQualityScore qualityScoreSpec
      simp only [List.isEmpty_cons, if_false, Bool.false_eq_true]
      rw [foldl_add_penalty, zero_add, penalty_sum_comm]
  refine ⟨heq, ?_, ?_, hempty⟩
  · cases issues with
    | nil => rw [hempty]; norm_num
    | cons i l =>
      unfold calcQualityScore
      simp only [List.isEmpty_cons, Bool.false_eq_true, if_false]
      exact round1_nonneg (le_max_left 0 _)
  · cases issues with
    | nil => rw [hempty]
    | cons i l =>
      unfold calcQualityScore
      simp only [List.isEmpty_cons, Bool.false_eq_true, if_false]
      apply round1_le_100
      rw [foldl_add_penalty, zero_add]
      have := hsum_nonneg
      rw [max_le_iff]
      constructor
      · norm_num
      · simp only [List.map_cons, List.sum_cons] at this ⊢
        linarith

/-- A concrete issue used to instantiate the quality-score theorem. -/
def witnessIssue : CodeIssue :=
  mkIssue .warning .performance "发现嵌套循环，可能导致O(n²)或更高复杂度" "a.py" 3
    "for x in xs:" "考虑优化算法，使用哈希表、预计算或其他数据结构来减少时间复杂度" 0.8

/-- Witness for C1 at a concrete one-issue list. -/
theorem quality_score_correct_witness :
    calcQualityScore [witnessIssue] = qualityScoreSpec [witnessIssue] ∧
    0 ≤ calcQualityScore [witnessIssue] ∧
    calcQualityScore [witnessIssue] ≤ 100 ∧
    calcQualityScore [] = 100 :=
  quality_score_correct [witnessIssue] (by
    intro i hi
    rw [List.mem_singleton] at hi
    subst hi
    norm_num [witnessIssue, mkIssue])

/-! ## Cyclomatic complexity (C2) -/

/-- The conditional/loop/with node kinds (async variants included) that add
one to cyclomatic complexity. -/
def branchNodeB : PyNode → Bool
  | .ifStmt _ _ _ _ => true
  | .whileStmt _ _ _ _ => true
  | .forStmt _ _ _ _ _ => true
  | .asyncForStmt _ _ _ _ _ => true
  | .withStmt _ _ _ => true
  | .asyncWithStmt _ _ _ => true
  | _ => false

/-- The boolean `and`/`or` operator nodes. -/
def boolOpNodeB : PyNode → Bool
  | .boolOpExpr _ _ => true
  | _ => false

/-- The number of exception-handler clauses a node carries (nonzero only on
`try`). -/
def handlerCountOf : PyNode → Nat
  | .tryStmt _ handlers _ _ _ => handlers.length
  | _ => 0

/-- Each node's complexity contribution splits into the branch indicator, the
handler count, and the boolean-operator indicator. -/
theorem complexityContribution_split (n : PyNode) :
    complexityContribution n =
      (if branchNodeB n then 1 else 0) + handlerCountOf n +
        (if boolOpNodeB n then 1 else 0) := by
  cases n <;> simp [complexityContribution, branchNodeB, handlerCountOf, boolOpNodeB]

/-- Summed complexity contributions split into the three counts. -/
theorem sum_complexityContribution (L : List PyNode) :
    (L.map complexityContribution).sum =
      L.countP branchNodeB + (L.map handlerCountOf).sum + L.countP boolOpNodeB := by
  induction L with
  | nil => rfl
  | cons a as ih =>
    simp only [List.map_cons, List.sum_cons, ih, List.countP_cons,
      complexityContribution_split a]
    split_ifs <;> omega

/-- C2: for every function definition, the computed cyclomatic complexity is
1 plus one per conditional/loop/with node (async variants included) in its
subtree, plus the handler-clause count of each `try` in its subtree, plus one
per boolean `and`/`or` node; in particular a function whose subtree has none
of these has complexity exactly 1. -/
theorem cyclomatic_complexity_characterization (name : String) (params : List String)
    (body : List PyNode) (lineno endLineno : Nat) :
    cyclomaticComplexity (.functionDef name params body lineno endLineno) =
      1 + ((walkList body).countP branchNodeB +
        ((walkList body).map handlerCountOf).sum +
        (walkList body).countP boolOpNodeB) ∧
    ((walkList body).countP branchNodeB = 0 →
      ((walkList body).map handlerCountOf).sum = 0 →
      (walkList body).countP boolOpNodeB = 0 →
      cyclomaticComplexity (.functionDef name params body lineno endLineno) = 1) := by
  have hmain : cyclomaticComplexity (.functionDef name params body lineno endLineno) =
      1 + ((walkList body).countP branchNodeB +
        ((walkList body).map handlerCountOf).sum +
        (walkList body).countP boolOpNodeB) := by
    show 1 + ((walkOf (.functionDef name params body lineno endLineno)).map
        complexityContribution).sum = _
    have hwalk : walkOf (.functionDef name params body lineno endLineno) =
        .functionDef name params body lineno endLineno :: walkList body := rfl
    rw [hwalk]
    simp only [List.map_cons, List.sum_cons, sum_complexityContribution]
    show 1 + (0 + _) = _
    omega
  refine ⟨hmain, fun h1 h2 h3 => ?_⟩
  rw [hmain, h1, h2, h3]

/-- Witness for C2: a function whose body is a single `pass` has complexity
1. -/
theorem cyclomatic_complexity_characterization_witness :
    cyclomaticComplexity (.functionDef "f" [] [.passStmt 2] 1 2) = 1 :=
  (cyclomatic_complexity_characterization "f" [] [.passStmt 2] 1 2).2 rfl rfl rfl

/-! ## Hardcoded-secret detection (C3) -/

/-- Recognizes the hardcoded-sensitive-information issue among all issues the
engine can emit (its message is unique to that rule). -/
def isHardcodedSecretIssue (i : CodeIssue) : Bool :=
  i.severity == .critical && i.category == .security &&
    i.message == "检测到硬编码的敏感信息"

/-- An assignment qualifying for the hardcoded-secret rule: the value is a
string constant longer than 8 characters and some keyword occurs in the
lower-cased target repr. -/
def qualifyingSecretAssign : PyNode → Bool
  | .assignStmt _ targetsRepr value _ =>
    match value with
    | .constantStr s =>
      s.length > 8 && secKeywords.any (fun k => pyIn k (lowerStr targetsRepr))
    | _ => false
  | _ => false

/-- The issue the hardcoded-secret rule emits at the given node. -/
def hardcodedIssueOf (lines : List String) (fp : String) (n : PyNode) : CodeIssue :=
  mkIssue .critical .security "检测到硬编码的敏感信息" fp (nodeLineno n)
    (snippetAt lines (nodeLineno n)) "使用环境变量、配置文件或密钥管理服务来存储敏感信息" 0.8

/-- The security visitor's per-node contribution contains a hardcoded-secret
issue exactly when the node is a qualifying assignment, and then exactly the
one issue of the rule. -/
theorem secCheckNode_filter (lines : List String) (fp : String) (n : PyNode) :
    (secCheckNode lines fp n).filter isHardcodedSecretIssue =
      (if qualifyingSecretAssign n then [hardcodedIssueOf lines fp n] else []) := by
  cases n <;> try rfl
  case assignStmt targets trepr value lineno =>
    cases value <;> try rfl
    case constantStr s =>
      simp only [secCheckNode, qualifyingSecretAssign]
      split_ifs <;> rfl
  case callExpr f args lineno =>
    have hq : qualifyingSecretAssign (.callExpr f args lineno) = false := rfl
    rw [hq]
    simp only [Bool.false_eq_true, if_false]
    cases f <;> try rfl
    case nameExpr i =>
      simp only [secCheckNode]
      split_ifs <;> rfl

/-- C3: over any tree, the security analyzer emits the critical/security
hardcoded-secret issue (confidence 0.8) once for each assignment whose value
is a string constant longer than 8 characters and whose target repr contains
a sensitive keyword case-insensitively — and no such issue for any other
node. -/
theorem hardcoded_secret_detection (lines : List String) (fp : String)
    (tree : List PyNode) :
    (securityIssues lines fp tree).filter isHardcodedSecretIssue =
      ((walkList tree).filter qualifyingSecretAssign).map (hardcodedIssueOf lines fp) :=
  filter_listFlat _ _ _ _ (secCheckNode_filter lines fp) (walkList tree)

/-! ## Bare-except issues (C4) -/

/-- Recognizes the bare-except issue among all issues the engine can emit. -/
def isBareExceptIssue (i : CodeIssue) : Bool :=
  i.severity == .warning && i.category == .logic &&
    i.message == "使用了裸except子句，可能掩盖重要错误"

/-- The number of bare except handlers anywhere in a tree. -/
def countBareHandlers (tree : List PyNode) : Nat :=
  ((walkList tree).filter isBareHandler).length

/-- The number of bare except handlers in the subtree of a node, when that
node is a (sync) function definition; 0 otherwise. -/
def bareHandlersInFunction : PyNode → Nat
  | n@(.functionDef _ _ _ _ _) => ((walkOf n).filter isBareHandler).length
  | _ => 0

/-- Naming-consistency issues are never bare-except issues. -/
theorem namingIssues_filter_bare (lines : List String) (fp name : String)
    (lineno : Nat) (n : PyNode) :
    (namingIssuesOf lines fp name lineno n).filter isBareExceptIssue = [] := by
  simp only [namingIssuesOf]
  split_ifs <;> rfl

/-- Responsibility issues are never bare-except issues. -/
theorem responsibilityIssues_filter_bare (lines : List String) (fp : String)
    (params : List String) (lineno : Nat) (n : PyNode) :
    (responsibilityIssuesOf lines fp params lineno n).filter isBareExceptIssue = [] := by
  simp only [responsibilityIssuesOf]
  split_ifs <;> rfl

/-- Every issue built by the bare-except rule matches the bare-except
recognizer. -/
theorem filter_bare_of_map (lines : List String) (fp : String) (hs : List PyNode) :
    (hs.map (bareExceptIssueOf lines fp)).filter isBareExceptIssue =
      hs.map (bareExceptIssueOf lines fp) := by
  induction hs with
  | nil => rfl
  | cons h hs ih =>
    simp only [List.map_cons, List.filter_cons]
    have hp : isBareExceptIssue (bareExceptIssueOf lines fp h) = true := rfl
    rw [hp]
    simp [ih]

/-- The business-logic visitor's per-node contribution holds as many
bare-except issues as the node — when it is a function definition — has bare
handlers in its subtree. -/
theorem bizCheckNode_bare_count (lines : List String) (fp : String) (n : PyNode) :
    (((bizCheckNode lines fp n).1).filter isBareExceptIssue).length =
      bareHandlersInFunction n := by
  cases n <;> try rfl
  case functionDef name params body lineno endLineno =>
    show ((namingIssuesOf lines fp name lineno _ ++
      responsibilityIssuesOf lines fp params lineno _ ++
      errorHandlingIssuesOf lines fp _).filter isBareExceptIssue).length = _
    rw [List.filter_append, List.filter_append, namingIssues_filter_bare,
      responsibilityIssues_filter_bare]
    simp only [List.nil_append, errorHandlingIssuesOf, filter_bare_of_map,
      List.length_map]
    rfl

/-- A module whose only statement is a `try` with one bare except handler,
the parse of `try:\n    pass\nexcept:\n    pass`. -/
def bareTryTree : List PyNode :=
  [.tryStmt [.passStmt 2] [.exceptHandler none [.passStmt 4] 3] [] [] 1]

/-- C4 counterexample: a module-level bare except handler (outside any
function definition) yields zero bare-except issues, not exactly one. -/
theorem bare_except_module_level_cex :
    countBareHandlers bareTryTree = 1 ∧
    ((businessIssues ["try:", "    pass", "except:", "    pass"] "m.py"
      bareTryTree).filter isBareExceptIssue).length = 0 :=
  ⟨rfl, rfl⟩

/-- C4 amended: each bare except handler gives one warning/logic issue per
(sync) function definition whose subtree contains it — so handlers in nested
functions are reported once per enclosing function, and handlers outside
every function definition (including those only inside async functions) are
not reported at all. Equivalently, the bare-except issue count is the sum
over function-definition nodes of the bare handlers in their subtrees. -/
theorem bare_except_issue_count (lines : List String) (fp : String)
    (tree : List PyNode) :
    ((businessIssues lines fp tree).filter isBareExceptIssue).length =
      ((walkList tree).map bareHandlersInFunction).sum :=
  length_filter_listFlat _ _ _ (bizCheckNode_bare_count lines fp) (walkList tree)

/-! ## Missing-file error (C5) -/

/-- A fresh engine instance (`CodeIntelligenceEngine.__init__`). -/
def emptyState : EngineState :=
  ⟨[], [], []⟩

/-- An empty sibling `.py` file under the project root. -/
def sibFile : PyFile :=
  { lines := [""], parsed := .ok [] }

/-- A file system holding one sibling `.py` file under the project root and a
known working directory; used to probe the missing-file error. -/
def cexFS : FileSystem :=
  { files := [(projectPath ++ "/sib.py", sibFile)], cwd := "/work" }

/-- C5 counterexample: the missing-file error of `analyze_code_intelligence`
is only the message with the path — it contains neither the current working
directory nor any sibling `.py` file name (that suggestion behavior lives in
a different server module, not in `analyze_file`). -/
theorem analyze_missing_no_suggestion_cex :
    (analyzeCodeIntelligence emptyState cexFS "nope.py").1 = .err "文件不存在: nope.py" ∧
    pyIn cexFS.cwd "文件不存在: nope.py" = false ∧
    pyIn "sib.py" "文件不存在: nope.py" = false :=
  ⟨rfl, rfl, rfl⟩

/-- C5 amended: for any path that (after the relative-path retry against the
fixed project root) does not exist, the tool returns the structured error
whose message is exactly `文件不存在: ` followed by the literal path queried,
leaves the engine state untouched, and — being a total function — raises
nothing; no working-directory or sibling-file diagnostics are attached. -/
theorem analyze_missing_error_literal (st : EngineState) (fs : FileSystem)
    (p : String) (h : fs.pathExists (resolvePath fs p) = false) :
    (analyzeCodeIntelligence st fs p).1 = .err ("文件不存在: " ++ p) ∧
    (analyzeCodeIntelligence st fs p).2 = st := by
  have hres : resolvePath fs p = p := by
    by_cases hc : (!isAbsPath p && fs.pathExists (projectPath ++ "/" ++ p)) = true
    · exfalso
      have hr : resolvePath fs p = projectPath ++ "/" ++ p := by
        unfold resolvePath
        rw [if_pos hc]
      rw [hr] at h
      have hex : fs.pathExists (projectPath ++ "/" ++ p) = true :=
        (Bool.and_eq_true _ _ |>.mp hc).2
      rw [hex] at h
      simp at h
    · unfold resolvePath
      rw [if_neg hc]
  have hread : fs.readAt p = none := by
    rw [hres] at h
    cases hcase : fs.readAt p with
    | none => rfl
    | some f =>
      unfold FileSystem.pathExists at h
      rw [hcase] at h
      simp at h
  unfold analyzeCodeIntelligence
  rw [hres]
  unfold analyzeFile
  rw [hread]
  exact ⟨rfl, rfl⟩

/-- Witness for C5 amended at a concrete file system and path. -/
theorem analyze_missing_error_literal_witness :
    (analyzeCodeIntelligence emptyState cexFS "ghost.py").1 =
      .err ("文件不存在: " ++ "ghost.py") ∧
    (analyzeCodeIntelligence emptyState cexFS "ghost.py").2 = emptyState :=
  analyze_missing_error_literal emptyState cexFS "ghost.py" rfl

/-! ## Refactoring-length boundary (C6) -/

/-- C6: a zero-parameter function whose line span (`end_lineno - lineno`, the
spec's "line span") is exactly 51 gets exactly the `function_length`
suggestion and no `parameter_count` suggestion, while a span of exactly 50
gets neither — the boundary is strictly greater than 50. -/
theorem refactoring_length_boundary (name : String) (l : Nat) :
    suggestRefactoring (.ok [.functionDef name [] [.passStmt (l + 1)] l (l + 51)]) =
      [⟨"function_length", "函数 '" ++ name ++ "' 过长，建议拆分",
        "将函数拆分为多个更小的函数"⟩] ∧
    suggestRefactoring (.ok [.functionDef name [] [.passStmt (l + 1)] l (l + 50)]) =
      [] := by
  constructor
  · norm_num [suggestRefactoring, walkList, subnodes, listFlat, refactorCheckNode,
      Nat.add_sub_cancel_left]
  · norm_num [suggestRefactoring, walkList, subnodes, listFlat, refactorCheckNode,
      Nat.add_sub_cancel_left]

/-! ## Nested-loop detection (C7) -/

/-- Recognizes the nested-loop issue among all issues the engine can emit. -/
def isNestedLoopIssue (i : CodeIssue) : Bool :=
  i.severity == .warning && i.category == .performance &&
    i.message == "发现嵌套循环，可能导致O(n²)或更高复杂度"

/-- A `for` loop whose proper subtree contains another for/while loop. -/
def forWithNestedLoop : PyNode → Bool
  | n@(.forStmt _ _ _ _ _) => !((subnodes n).filter isLoopNode).isEmpty
  | _ => false

/-- The issue the nested-loop rule emits at the given (for) node. -/
def nestedLoopIssueOf (lines : List String) (fp : String) (n : PyNode) : CodeIssue :=
  mkIssue .warning .performance "发现嵌套循环，可能导致O(n²)或更高复杂度" fp (nodeLineno n)
    (snippetAt lines (nodeLineno n))
    "考虑优化算法，使用哈希表、预计算或其他数据结构来减少时间复杂度" 0.8

/-- The performance visitor's per-node contribution contains a nested-loop
issue exactly when the node is a `for` loop with another loop in its
subtree. -/
theorem perfCheckNode_filter (lines : List String) (fp : String) (n : PyNode) :
    (perfCheckNode lines fp n).filter isNestedLoopIssue =
      (if forWithNestedLoop n then [nestedLoopIssueOf lines fp n] else []) := by
  cases n <;> try rfl
  case forStmt tg it body orelse lineno =>
    simp only [perfCheckNode, forWithNestedLoop]
    rw [List.filter_append]
    split_ifs <;> rfl

/-- A module consisting of a `while` loop whose body is a `for` loop. -/
def whileOuterTree : List PyNode :=
  [.whileStmt (.nameExpr "c")
    [.forStmt (.nameExpr "x") (.nameExpr "xs") [.passStmt 3] [] 2] [] 1]

/-- C7 counterexample: a `while` loop with a loop nested in its body is never
flagged — the performance analyzer emits nothing at all for this module,
although it holds an outer loop containing an inner loop. -/
theorem while_outer_loop_cex :
    performanceIssues ["while c:", "    for x in xs:", "        pass"] "m.py"
      whileOuterTree = [] ∧
    (walkList whileOuterTree).countP isLoopNode = 2 :=
  ⟨rfl, rfl⟩

/-- C7 amended: only `for` loops are inspected: over any tree, the
warning/performance nested-loop issue (confidence 0.8, attributed to the
outer loop's line) is emitted once for each `for` node whose subtree contains
another for/while loop, and for no other node — in particular never for an
outer `while` loop. -/
theorem nested_loop_issue_characterization (lines : List String) (fp : String)
    (tree : List PyNode) :
    (performanceIssues lines fp tree).filter isNestedLoopIssue =
      ((walkList tree).filter forWithNestedLoop).map (nestedLoopIssueOf lines fp) :=
  filter_listFlat _ _ _ _ (perfCheckNode_filter lines fp) (walkList tree)

/-! ## Determinism of analyze_file (C8) -/

/-- The result of one `analyze_file` call does not depend on the accumulator
state the engine starts in. -/
theorem analyzeFile_fst_const (st st' : EngineState) (fs : FileSystem) (p : String) :
    (analyzeFile st fs p).1 = (analyzeFile st' fs p).1 := by
  unfold analyzeFile
  cases fs.readAt p with
  | none => rfl
  | some file =>
    dsimp only
    cases file.parsed with
    | error e => rfl
    | ok tree => rfl

/-- C8: running `analyze_file` a second time on the same unchanged file
returns the identical result: the accumulators are reset before the
analyzers run, so the state left by the first call never leaks into the
second result. -/
theorem analyze_file_deterministic (st : EngineState) (fs : FileSystem) (p : String) :
    (analyzeFile (analyzeFile st fs p).2 fs p).1 = (analyzeFile st fs p).1 :=
  analyzeFile_fst_const (analyzeFile st fs p).2 st fs p

/-! ## Tech-debt long_functions factor (C9) -/

/-- A 2000-character padding line. -/
def padX : String :=
  String.mk (List.replicate 2000 'x')

/-- A `.py` file content with two `def ` lines and more than 2000
characters. -/
def twoDefContent : String :=
  "def a():\ndef b():\n" ++ padX

/-- Splitting steps over a non-newline character. -/
theorem splitNlAux_cons_ne (acc : List Char) (c : Char) (cs : List Char)
    (h : (c == '\n') = false) :
    splitNlAux acc (c :: cs) = splitNlAux (c :: acc) cs := by
  simp [splitNlAux, h]

/-- Splitting emits the current piece at a newline. -/
theorem splitNlAux_cons_nl (acc : List Char) (cs : List Char) :
    splitNlAux acc ('\n' :: cs) = acc.reverse :: splitNlAux [] cs := by
  simp [splitNlAux]

/-- A run of `'x'` characters splits into a single piece. -/
theorem splitNlAux_replicate_x (n : Nat) (acc : List Char) :
    splitNlAux acc (List.replicate n 'x') = [acc.reverse ++ List.replicate n 'x'] := by
  induction n generalizing acc with
  | zero => simp [splitNlAux]
  | succ n ih =>
    rw [List.replicate_succ, splitNlAux_cons_ne acc 'x' (List.replicate n 'x') rfl, ih]
    simp

/-- The lines of the counterexample content. -/
theorem twoDef_lines : pySplitLines twoDefContent = ["def a():", "def b():", padX] := by
  have hstep : splitNlAux [] twoDefContent.data =
      ['d', 'e', 'f', ' ', 'a', '(', ')', ':'] ::
        ['d', 'e', 'f', ' ', 'b', '(', ')', ':'] ::
        splitNlAux [] (List.replicate 2000 'x') := rfl
  show (splitNlAux [] twoDefContent.data).map String.mk = _
  rw [hstep, splitNlAux_replicate_x]
  rfl

/-- No `def ` occurs in a run of `'x'` characters. -/
theorem hasSub_def_replicate (n : Nat) :
    hasSubL "def ".data (List.replicate n 'x') = false := by
  induction n with
  | zero => rfl
  | succ n ih =>
    rw [List.replicate_succ]
    show (startsL "def ".data ('x' :: List.replicate n 'x') ||
      hasSubL "def ".data (List.replicate n 'x')) = false
    rw [show startsL "def ".data ('x' :: List.replicate n 'x') = false from rfl,
      Bool.false_or, ih]

/-- The counterexample content is 2018 characters long. -/
theorem twoDefContent_length : twoDefContent.length = 2018 := by
  show twoDefContent.data.length = 2018
  rw [show twoDefContent.data = "def a():\ndef b():\n".data ++ List.replicate 2000 'x'
    from rfl]
  rw [List.length_append, List.length_replicate]
  rfl

/-- The counterexample content contributes 2 to `long_functions`. -/
theorem longFunctionsOfFile_twoDef : longFunctionsOfFile twoDefContent = 2 := by
  have hlen : decide (twoDefContent.length > 2000) = true := by
    rw [twoDefContent_length]
    rfl
  have h3 : pyIn "def " padX = false := by
    show hasSubL "def ".data (List.replicate 2000 'x') = false
    exact hasSub_def_replicate 2000
  unfold longFunctionsOfFile
  rw [twoDef_lines]
  rw [List.filter_cons, List.filter_cons, List.filter_cons, List.filter_nil,
    show pyIn "def " "def a():" = true from rfl,
    show pyIn "def " "def b():" = true from rfl, h3, hlen]
  simp

/-- A filter by a predicate false on every member is empty. -/
theorem filter_nil_of_mem {α : Type} (p : α → Bool) :
    ∀ l : List α, (∀ a ∈ l, p a = false) → l.filter p = [] := by
  intro l h
  induction l with
  | nil => rfl
  | cons a as ih =>
    rw [List.filter_cons, h a (List.mem_cons_self a as)]
    exact ih fun x hx => h x (List.mem_cons_of_mem _ hx)

/-- The `long_functions` counter of the fold is the accumulator's value plus
the per-file contributions. -/
theorem foldl_debtStep_long (pyFiles : List (String × String)) :
    ∀ acc : DebtFactors,
      (pyFiles.foldl debtStep acc).long_functions =
        acc.long_functions + (pyFiles.map (fun f => longFunctionsOfFile f.2)).sum := by
  induction pyFiles with
  | nil => intro acc; simp
  | cons f fs ih =>
    intro acc
    rw [List.foldl_cons, ih, List.map_cons, List.sum_cons]
    show acc.long_functions + longFunctionsOfFile f.2 + _ = _
    omega

/-- C9 counterexample: a single qualifying `.py` file (it contains `def `
lines and exceeds 2000 characters) raises `long_functions` by 2 — once per
`def ` line, not once per file. -/
theorem long_functions_two_per_file_cex :
    (calcTechDebtFactors [("a.py", twoDefContent)]).long_functions = 2 ∧
    pyIn "def " twoDefContent = true ∧
    2000 < twoDefContent.length := by
  refine ⟨?_, rfl, ?_⟩
  · rw [show calcTechDebtFactors [("a.py", twoDefContent)] =
        List.foldl debtStep ⟨0, 0, 0, 0, 0⟩ [("a.py", twoDefContent)] from rfl,
      foldl_debtStep_long]
    simp [longFunctionsOfFile_twoDef]
  · rw [twoDefContent_length]
    norm_num

/-- C9 amended: per scanned `.py` file, `long_functions` increases by the
number of lines containing `def ` when the file's total character length
exceeds 2000, and by zero otherwise; the project counter is the sum of these
per-file contributions, so in particular a file lacking a `def ` line or not
exceeding 2000 characters contributes zero. -/
theorem long_functions_formula (pyFiles : List (String × String)) :
    (calcTechDebtFactors pyFiles).long_functions =
      (pyFiles.map (fun f => longFunctionsOfFile f.2)).sum ∧
    ∀ content : String,
      ((pySplitLines content).all (fun l => !(pyIn "def " l)) = true ∨
        content.length ≤ 2000) →
      longFunctionsOfFile content = 0 := by
  constructor
  · rw [show calcTechDebtFactors pyFiles = pyFiles.foldl debtStep ⟨0, 0, 0, 0, 0⟩ from rfl,
      foldl_debtStep_long]
    simp
  · intro content hcond
    unfold longFunctionsOfFile
    rw [List.length_eq_zero]
    apply filter_nil_of_mem
    intro l hl
    rcases hcond with hnodef | hlen
    · have hlf := List.all_eq_true.mp hnodef l hl
      have : pyIn "def " l = false := by
        cases hpi : pyIn "def " l
        · rfl
        · rw [hpi] at hlf; simp at hlf
      rw [this, Bool.false_and]
    · have : decide (content.length > 2000) = false :=
        decide_eq_false (by omega)
      rw [this, Bool.and_false]

/-- Witness for C9 amended at a concrete short file. -/
theorem long_functions_formula_witness :
    (calcTechDebtFactors [("t.py", "x = 1")]).long_functions =
      ([("t.py", "x = 1")].map (fun f => longFunctionsOfFile f.2)).sum ∧
    longFunctionsOfFile "x = 1" = 0 :=
  ⟨(long_functions_formula [("t.py", "x = 1")]).1,
   (long_functions_formula []).2 "x = 1" (Or.inr (by decide))⟩

/-! ## Async functions are invisible to the business analyzer (C10) -/

/-- The business visitor's per-node metric count: one per (sync) function
definition. -/
theorem bizCheckNode_metric_count (lines : List String) (fp : String) (n : PyNode) :
    ((bizCheckNode lines fp n).2).length =
      (fun n => if isFunctionDefNode n then 1 else 0) n := by
  cases n <;> rfl

/-- C10: async function definitions are invisible to the business-logic
analyzer — exactly one `FunctionMetrics` is recorded per sync
`ast.FunctionDef` node (none for `ast.AsyncFunctionDef`, whose name,
complexity and parameters are never checked), and every recorded metric has
its async flag false. -/
theorem async_functions_invisible (lines : List String) (fp : String)
    (tree : List PyNode) :
    (businessMetrics lines fp tree).length =
      ((walkList tree).filter isFunctionDefNode).length ∧
    ∀ m ∈ businessMetrics lines fp tree, m.async_function = false := by
  constructor
  · rw [show businessMetrics lines fp tree =
        listFlat (fun n => (bizCheckNode lines fp n).2) (walkList tree) from rfl,
      length_listFlat _ _ (bizCheckNode_metric_count lines fp), sum_map_ite_one]
  · intro m hm
    rcases (mem_listFlat (fun n => (bizCheckNode lines fp n).2) m (walkList tree)).mp hm
      with ⟨n, hn, hmem⟩
    cases n <;> simp [bizCheckNode] at hmem
    rw [hmem]
    rfl

/-- A module with one async function and one sync function. -/
def asyncMixTree : List PyNode :=
  [.asyncFunctionDef "ag" [] [.passStmt 2] 1 2,
   .functionDef "g" [] [.passStmt 4] 3 4]

/-- The metric recorded for the sync function of `asyncMixTree`. -/
def gMetric : FunctionMetrics :=
  metricOf "g" [] [.passStmt 4] 3 4 (.functionDef "g" [] [.passStmt 4] 3 4)

/-- Witness for C10: in `asyncMixTree` exactly one metric is recorded (for
the sync function only) and its async flag is false. -/
theorem async_functions_invisible_witness :
    (businessMetrics [] "m.py" asyncMixTree).length =
      ((walkList asyncMixTree).filter isFunctionDefNode).length ∧
    gMetric.async_function = false :=
  ⟨(async_functions_invisible [] "m.py" asyncMixTree).1,
   (async_functions_invisible [] "m.py" asyncMixTree).2 gMetric (by
     rw [show businessMetrics [] "m.py" asyncMixTree = [gMetric] from rfl]
     exact List.mem_singleton_self gMetric)⟩

end CodeAnalyzer
